import Mathlib

/-!
Shallow embedding of the stock-backend service (backend/index.js):
per-section stock collections of (size, quantity) items, the three
mutating routes (POST /stock/in, POST /stock/out, POST /upload) and the
transaction log. File contents are modelled as in-memory lists; the
clock is an explicit `now : Nat` parameter standing for the ISO
timestamp taken at each append.
-/

namespace StockBackend

/-- A stock item, one entry of a section collection: `{ size, quantity }`. -/
structure StockItem where
  size : Int
  quantity : Int
deriving DecidableEq, Repr

/-- A section collection is persisted as a JSON array of items. -/
abbrev StockCollection := List StockItem

/-- Transaction types written by `logTransaction` call sites. -/
inductive TxType
  | IN
  | OUT
  | UPLOAD
deriving DecidableEq, Repr

/-- A persisted transaction record, timestamp included. -/
structure Transaction where
  sect : String
  size : Int
  quantity : Int
  type : TxType
  timestamp : Nat
deriving DecidableEq, Repr

/-- The argument of `logTransaction` before the timestamp is spread in. -/
structure TxData where
  sect : String
  size : Int
  quantity : Int
  type : TxType
deriving DecidableEq, Repr

/-- `const sections = ['A', 'B', 'C']`. -/
def sections : List String := ["A", "B", "C"]

/-- The state a single request touches: the target section stock file
plus the shared transaction log file. -/
structure State where
  stock : StockCollection
  log : List Transaction
deriving DecidableEq, Repr

/-- Startup writes `[]` into every missing stock file and into the log. -/
def initState : State := ⟨[], []⟩

/-- `getStockData`: read and parse the section file, and on any failure
(missing or unreadable document, modelled as `none`) swallow the error
and return the empty list. -/
def getStockData (doc : Option StockCollection) : StockCollection :=
  match doc with
  | some d => d
  | none => []

/-- `logTransaction`: read the whole log, push the entry with a
timestamp taken now, rewrite the whole document. -/
def logTransaction (log : List Transaction) (t : TxData) (now : Nat) :
    List Transaction :=
  log ++ [⟨t.sect, t.size, t.quantity, t.type, now⟩]

/-- The 400-level error bodies the routes can answer with. -/
inductive ApiError
  | invalidInput
  | invalidSection
  | itemNotFound
  | insufficientStock
  | noFile
deriving DecidableEq, Repr

/-- The human-readable message of each error body. -/
def ApiError.message : ApiError → String
  | .invalidInput => "Invalid input data"
  | .invalidSection => "Invalid section"
  | .itemNotFound => "Item not found in stock"
  | .insufficientStock => "Not enough stock available"
  | .noFile => "No file uploaded"

/-- A route response: `{success: true, stockData}` or `{error: ...}`. -/
inductive ApiResponse
  | ok (stockData : StockCollection)
  | err (e : ApiError)
deriving DecidableEq, Repr

/-- Whether the response was the 200 success body. -/
def ApiResponse.isOk : ApiResponse → Bool
  | .ok _ => true
  | .err _ => false

/-- JS truthiness of the `section` body field: absent or null is falsy
(`none`), and so is the empty string. -/
def truthyS : Option String → Bool
  | none => false
  | some v => if v = "" then false else true

/-- JS truthiness of the `size` and `quantity` body fields: absent or
null is falsy (`none`), and so is the number 0. -/
def truthyI : Option Int → Bool
  | none => false
  | some v => if v = 0 then false else true

/-- `stockData.findIndex(item => item.size === size)` followed by a
read of that item quantity: the quantity of the first item of the
given size. -/
def findQty (z : Int) : StockCollection → Option Int
  | [] => none
  | item :: rest => if item.size = z then some item.quantity else findQty z rest

/-- The `/stock/in` mutation: add `q` to the first item of size `z`,
or push `{size: z, quantity: q}` at the end when none exists. -/
def addQty (z q : Int) : StockCollection → StockCollection
  | [] => [⟨z, q⟩]
  | item :: rest =>
    if item.size = z then ⟨item.size, item.quantity + q⟩ :: rest
    else item :: addQty z q rest

/-- The `/stock/out` mutation: subtract `q` from the first item of
size `z` (the route only reaches it when such an item exists). -/
def subQty (z q : Int) : StockCollection → StockCollection
  | [] => []
  | item :: rest =>
    if item.size = z then ⟨item.size, item.quantity - q⟩ :: rest
    else item :: subQty z q rest

/-- The `/upload` per-row mutation: set the first item of size `z` to
quantity `q` absolutely, or push a new item when none exists. -/
def setQty (z q : Int) : StockCollection → StockCollection
  | [] => [⟨z, q⟩]
  | item :: rest =>
    if item.size = z then ⟨item.size, q⟩ :: rest
    else item :: setQty z q rest

/-- The full result of a `/stock/in` or `/stock/out` request: the state
left on disk and the HTTP response. -/
structure HttpResult where
  state : State
  response : ApiResponse
deriving DecidableEq, Repr

/-- `app.post('/stock/in')`: validate truthiness and positivity, then
the section, then find-and-add, save, and log an IN transaction. -/
def stockIn (st : State) (now : Nat) (sec : Option String)
    (size qty : Option Int) : HttpResult :=
  if truthyS sec = false ∨ truthyI size = false ∨ truthyI qty = false ∨
      qty.getD 0 ≤ 0 then
    ⟨st, .err .invalidInput⟩
  else if (sec.getD "") ∉ sections then
    ⟨st, .err .invalidSection⟩
  else
    ⟨⟨addQty (size.getD 0) (qty.getD 0) st.stock,
        logTransaction st.log
          ⟨sec.getD "", size.getD 0, qty.getD 0, .IN⟩ now⟩,
      .ok (addQty (size.getD 0) (qty.getD 0) st.stock)⟩

/-- `app.post('/stock/out')`: same validation, then item-not-found and
insufficient-stock checks before decrement, save and OUT log entry. -/
def stockOut (st : State) (now : Nat) (sec : Option String)
    (size qty : Option Int) : HttpResult :=
  if truthyS sec = false ∨ truthyI size = false ∨ truthyI qty = false ∨
      qty.getD 0 ≤ 0 then
    ⟨st, .err .invalidInput⟩
  else if (sec.getD "") ∉ sections then
    ⟨st, .err .invalidSection⟩
  else
    match findQty (size.getD 0) st.stock with
    | none => ⟨st, .err .itemNotFound⟩
    | some c =>
      if c < qty.getD 0 then ⟨st, .err .insufficientStock⟩
      else
        ⟨⟨subQty (size.getD 0) (qty.getD 0) st.stock,
            logTransaction st.log
              ⟨sec.getD "", size.getD 0, qty.getD 0, .OUT⟩ now⟩,
          .ok (subQty (size.getD 0) (qty.getD 0) st.stock)⟩

/-- One parsed CSV row: `parseInt` of each column, `none` meaning NaN. -/
structure CsvRow where
  size : Option Int
  quantity : Option Int
deriving DecidableEq, Repr

/-- The `isNaN` filter of the upload loop: a row is applied only when
both parsed fields are numbers. -/
def rowValid (r : CsvRow) : Bool := r.size.isSome && r.quantity.isSome

/-- One iteration of `results.forEach` in `/upload`: skip NaN rows,
otherwise set the quantity absolutely and log an UPLOAD transaction. -/
def applyUploadRow (s : String) (now : Nat) (st : State) (r : CsvRow) :
    State :=
  match r.size, r.quantity with
  | some z, some q =>
    ⟨setQty z q st.stock, logTransaction st.log ⟨s, z, q, .UPLOAD⟩ now⟩
  | _, _ => st

/-- The full result of a `/upload` request; `fileDeleted` records
whether `fs.unlinkSync(req.file.path)` ran on the transient upload. -/
structure UploadResult where
  state : State
  response : ApiResponse
  fileDeleted : Bool
deriving DecidableEq, Repr

/-- `app.post('/upload')`: reject a falsy or unknown section, then a
missing file, otherwise apply every parsed row, save once, delete the
uploaded file and answer with the resulting collection. -/
def uploadHandler (st : State) (now : Nat) (sec : Option String)
    (file : Option (List CsvRow)) : UploadResult :=
  if truthyS sec = false ∨ (sec.getD "") ∉ sections then
    ⟨st, .err .invalidSection, false⟩
  else
    match file with
    | none => ⟨st, .err .noFile, false⟩
    | some rows =>
      ⟨rows.foldl (applyUploadRow (sec.getD "") now) st,
        .ok (rows.foldl (applyUploadRow (sec.getD "") now) st).stock, true⟩

/-- States reachable from the empty startup state by any sequence of
requests to the three mutating routes. -/
inductive Reachable : State → Prop
  | init : Reachable initState
  | stepIn (st : State) (now : Nat) (sec : Option String)
      (size qty : Option Int) : Reachable st →
      Reachable (stockIn st now sec size qty).state
  | stepOut (st : State) (now : Nat) (sec : Option String)
      (size qty : Option Int) : Reachable st →
      Reachable (stockOut st now sec size qty).state
  | stepUpload (st : State) (now : Nat) (sec : Option String)
      (file : Option (List CsvRow)) : Reachable st →
      Reachable (uploadHandler st now sec file).state

/-- The multiset of size keys of a collection. -/
def sizes (c : StockCollection) : List Int := c.map StockItem.size

/-- All quantities of a collection are non-negative. -/
def nonNegStock (c : StockCollection) : Prop :=
  ∀ item ∈ c, 0 ≤ item.quantity

/-! Basic lemmas about the embedded operations. -/

theorem sections_ne_empty {s : String} (h : s ∈ sections) : s ≠ "" := by
  simp only [sections, List.mem_cons, List.not_mem_nil, or_false] at h
  rcases h with rfl | rfl | rfl <;> decide

theorem guard_passes {s : String} {z q : Int} (hs : s ∈ sections) (hz : z ≠ 0)
    (hq : 0 < q) :
    ¬(truthyS (some s) = false ∨ truthyI (some z) = false ∨
      truthyI (some q) = false ∨ (some q : Option Int).getD 0 ≤ 0) := by
  have hs1 : s ≠ "" := sections_ne_empty hs
  simp [truthyS, truthyI, hs1, hz]
  omega

theorem sec_pass {s : String} (hs : s ∈ sections) :
    ¬((some s : Option String).getD "" ∉ sections) := by
  simpa using hs

theorem sizes_cons (i : StockItem) (c : StockCollection) :
    sizes (i :: c) = i.size :: sizes c := rfl

theorem sizes_addQty (z q : Int) (c : StockCollection) :
    sizes (addQty z q c) = if z ∈ sizes c then sizes c else sizes c ++ [z] := by
  induction c with
  | nil => simp [addQty, sizes]
  | cons i rest ih =>
    by_cases hsz : i.size = z
    · subst hsz
      simp [addQty, sizes]
    · have hsz2 : z ≠ i.size := fun hh => hsz hh.symm
      by_cases hm : z ∈ sizes rest
      · simp [addQty, sizes_cons, hsz, hsz2, hm, ih, List.mem_cons]
      · simp [addQty, sizes_cons, hsz, hsz2, hm, ih, List.mem_cons]

theorem sizes_setQty (z q : Int) (c : StockCollection) :
    sizes (setQty z q c) = if z ∈ sizes c then sizes c else sizes c ++ [z] := by
  induction c with
  | nil => simp [setQty, sizes]
  | cons i rest ih =>
    by_cases hsz : i.size = z
    · subst hsz
      simp [setQty, sizes]
    · have hsz2 : z ≠ i.size := fun hh => hsz hh.symm
      by_cases hm : z ∈ sizes rest
      · simp [setQty, sizes_cons, hsz, hsz2, hm, ih, List.mem_cons]
      · simp [setQty, sizes_cons, hsz, hsz2, hm, ih, List.mem_cons]

theorem sizes_subQty (z q : Int) (c : StockCollection) :
    sizes (subQty z q c) = sizes c := by
  induction c with
  | nil => rfl
  | cons i rest ih =>
    by_cases hsz : i.size = z
    · simp [subQty, sizes_cons, hsz]
    · simp [subQty, sizes_cons, hsz, ih]

theorem nodup_sizes_addQty (z q : Int) {c : StockCollection}
    (h : (sizes c).Nodup) : (sizes (addQty z q c)).Nodup := by
  rw [sizes_addQty]
  split
  · exact h
  · rename_i hm
    exact List.Nodup.append h (List.nodup_singleton z)
      (fun a ha hb => hm ((List.mem_singleton.mp hb) ▸ ha))

theorem nodup_sizes_setQty (z q : Int) {c : StockCollection}
    (h : (sizes c).Nodup) : (sizes (setQty z q c)).Nodup := by
  rw [sizes_setQty]
  split
  · exact h
  · rename_i hm
    exact List.Nodup.append h (List.nodup_singleton z)
      (fun a ha hb => hm ((List.mem_singleton.mp hb) ▸ ha))

theorem nodup_sizes_subQty (z q : Int) {c : StockCollection}
    (h : (sizes c).Nodup) : (sizes (subQty z q c)).Nodup := by
  rw [sizes_subQty]
  exact h

theorem findQty_addQty (z q : Int) (c : StockCollection) :
    findQty z (addQty z q c) = some ((findQty z c).getD 0 + q) := by
  induction c with
  | nil => simp [addQty, findQty]
  | cons i rest ih =>
    by_cases hsz : i.size = z
    · simp [addQty, findQty, hsz]
    · simp [addQty, findQty, hsz, ih]

theorem setQty_setQty (z q : Int) (c : StockCollection) :
    setQty z q (setQty z q c) = setQty z q c := by
  induction c with
  | nil => simp [setQty]
  | cons i rest ih =>
    by_cases hsz : i.size = z
    · simp [setQty, hsz]
    · simp [setQty, hsz, ih]

theorem nonNeg_addQty (z q : Int) (hq : 0 ≤ q) :
    ∀ c : StockCollection, nonNegStock c → nonNegStock (addQty z q c) := by
  intro c
  induction c with
  | nil =>
    intro _ item hm
    simp only [addQty, List.mem_singleton] at hm
    subst hm
    exact hq
  | cons i rest ih =>
    intro h item hm
    simp only [addQty] at hm
    split at hm
    · rcases List.mem_cons.mp hm with rfl | hm2
      · exact add_nonneg (h i (List.mem_cons_self i rest)) hq
      · exact h item (List.mem_cons_of_mem i hm2)
    · rcases List.mem_cons.mp hm with rfl | hm2
      · exact h item (List.mem_cons_self item rest)
      · exact ih (fun x hx => h x (List.mem_cons_of_mem i hx)) item hm2

theorem nonNeg_setQty (z q : Int) (hq : 0 ≤ q) :
    ∀ c : StockCollection, nonNegStock c → nonNegStock (setQty z q c) := by
  intro c
  induction c with
  | nil =>
    intro _ item hm
    simp only [setQty, List.mem_singleton] at hm
    subst hm
    exact hq
  | cons i rest ih =>
    intro h item hm
    simp only [setQty] at hm
    split at hm
    · rcases List.mem_cons.mp hm with rfl | hm2
      · exact hq
      · exact h item (List.mem_cons_of_mem i hm2)
    · rcases List.mem_cons.mp hm with rfl | hm2
      · exact h item (List.mem_cons_self item rest)
      · exact ih (fun x hx => h x (List.mem_cons_of_mem i hx)) item hm2

theorem nonNeg_subQty (z q : Int) :
    ∀ c : StockCollection, nonNegStock c → ∀ cq : Int,
      findQty z c = some cq → q ≤ cq → nonNegStock (subQty z q c) := by
  intro c
  induction c with
  | nil =>
    intro _ cq hf
    simp [findQty] at hf
  | cons i rest ih =>
    intro h cq hf hq item hm
    by_cases hsz : i.size = z
    · simp only [findQty, if_pos hsz] at hf
      injection hf with hf2
      simp only [subQty, if_pos hsz] at hm
      rcases List.mem_cons.mp hm with rfl | hm2
      · show 0 ≤ i.quantity - q
        have h0 : 0 ≤ i.quantity := h i (List.mem_cons_self i rest)
        omega
      · exact h item (List.mem_cons_of_mem i hm2)
    · simp only [findQty, if_neg hsz] at hf
      simp only [subQty, if_neg hsz] at hm
      rcases List.mem_cons.mp hm with rfl | hm2
      · exact h item (List.mem_cons_self item rest)
      · exact ih (fun x hx => h x (List.mem_cons_of_mem i hx)) cq hf hq item hm2

/-! Lemmas about the route handlers. -/

theorem stockIn_ok_stock (st : State) (now : Nat) (s : String) (z q : Int)
    (hs : s ∈ sections) (hz : z ≠ 0) (hq : 0 < q) :
    (stockIn st now (some s) (some z) (some q)).state.stock =
      addQty z q st.stock := by
  unfold stockIn
  rw [if_neg (guard_passes hs hz hq), if_neg (sec_pass hs)]
  rfl

theorem stockIn_ok_log (st : State) (now : Nat) (s : String) (z q : Int)
    (hs : s ∈ sections) (hz : z ≠ 0) (hq : 0 < q) :
    (stockIn st now (some s) (some z) (some q)).state.log =
      st.log ++ [⟨s, z, q, TxType.IN, now⟩] := by
  unfold stockIn
  rw [if_neg (guard_passes hs hz hq), if_neg (sec_pass hs)]
  rfl

theorem stockIn_nodup (st : State) (now : Nat) (sec : Option String)
    (size qty : Option Int) (h : (sizes st.stock).Nodup) :
    (sizes (stockIn st now sec size qty).state.stock).Nodup := by
  unfold stockIn
  split
  · exact h
  · split
    · exact h
    · exact nodup_sizes_addQty _ _ h

theorem stockOut_nodup (st : State) (now : Nat) (sec : Option String)
    (size qty : Option Int) (h : (sizes st.stock).Nodup) :
    (sizes (stockOut st now sec size qty).state.stock).Nodup := by
  unfold stockOut
  split
  · exact h
  · split
    · exact h
    · split
      · exact h
      · split
        · exact h
        · exact nodup_sizes_subQty _ _ h

theorem foldl_upload_nodup (s : String) (now : Nat) (rows : List CsvRow) :
    ∀ st : State, (sizes st.stock).Nodup →
      (sizes ((rows.foldl (applyUploadRow s now) st).stock)).Nodup := by
  induction rows with
  | nil =>
    intro st h
    simpa using h
  | cons r rest ih =>
    intro st h
    rw [List.foldl_cons]
    apply ih
    rcases r with ⟨rs, rq⟩
    cases rs with
    | none => exact h
    | some z =>
      cases rq with
      | none => exact h
      | some q => exact nodup_sizes_setQty z q h

theorem uploadHandler_nodup (st : State) (now : Nat) (sec : Option String)
    (file : Option (List CsvRow)) (h : (sizes st.stock).Nodup) :
    (sizes (uploadHandler st now sec file).state.stock).Nodup := by
  unfold uploadHandler
  split
  · exact h
  · cases file with
    | none => exact h
    | some rows => exact foldl_upload_nodup _ now rows st h

theorem foldl_upload_log (s : String) (now : Nat) (rows : List CsvRow) :
    ∀ st : State, (rows.foldl (applyUploadRow s now) st).log =
      st.log ++ (rows.filter rowValid).map
        (fun r => ⟨s, r.size.getD 0, r.quantity.getD 0, TxType.UPLOAD, now⟩) := by
  induction rows with
  | nil =>
    intro st
    simp
  | cons r rest ih =>
    intro st
    rw [List.foldl_cons]
    rcases r with ⟨rs, rq⟩
    cases rs with
    | none =>
      rw [ih]
      simp [applyUploadRow, rowValid]
    | some z =>
      cases rq with
      | none =>
        rw [ih]
        simp [applyUploadRow, rowValid]
      | some q =>
        rw [ih]
        simp [applyUploadRow, rowValid, logTransaction, List.filter_cons]

theorem foldl_upload_nonNeg (s : String) (now : Nat) (rows : List CsvRow) :
    ∀ st : State, nonNegStock st.stock →
      (∀ r ∈ rows, 0 ≤ r.quantity.getD 0) →
      nonNegStock ((rows.foldl (applyUploadRow s now) st).stock) := by
  induction rows with
  | nil =>
    intro st h _
    simpa using h
  | cons r rest ih =>
    intro st h hrows
    rw [List.foldl_cons]
    refine ih (applyUploadRow s now st r) ?_
      (fun r2 hr2 => hrows r2 (List.mem_cons_of_mem _ hr2))
    have hq := hrows r (List.mem_cons_self _ _)
    rcases r with ⟨rs, rq⟩
    cases rs with
    | none => exact h
    | some z =>
      cases rq with
      | none => exact h
      | some q => exact nonNeg_setQty z q (by simpa using hq) st.stock h

/-! Claim theorems. -/

/-- Claim C1, counterexample: the claim says no StockItem of any
reachable state ever has a negative quantity and that every applied
upload row leaves its item at quantity at least 0; but a single upload
request on section A whose CSV row parses to (size 10, quantity -5)
reaches, from the startup state, a state whose collection holds the
item (10, -5) with negative quantity: the upload loop only filters NaN
fields, never negative values. -/
theorem C1_counterexample :
    Reachable ⟨[⟨10, -5⟩], [⟨"A", 10, -5, TxType.UPLOAD, 0⟩]⟩ ∧
    (⟨10, -5⟩ : StockItem) ∈
      (⟨[⟨10, -5⟩], [⟨"A", 10, -5, TxType.UPLOAD, 0⟩]⟩ : State).stock ∧
    (⟨10, -5⟩ : StockItem).quantity < 0 := by
  refine ⟨?_, by decide, by decide⟩
  have h := Reachable.stepUpload initState 0 (some "A")
    (some [⟨some 10, some (-5)⟩]) Reachable.init
  have e : (uploadHandler initState 0 (some "A")
      (some [⟨some 10, some (-5)⟩])).state
      = ⟨[⟨10, -5⟩], [⟨"A", 10, -5, TxType.UPLOAD, 0⟩]⟩ := by decide
  exact e ▸ h

/-- Claim C1, amended: StockIn and StockOut do preserve non-negativity
of every quantity in the collection, and an upload preserves it
provided every applied row carries a non-negative parsed quantity; an
upload row with a negative parsed quantity is applied verbatim and can
make a quantity negative. -/
theorem C1_nonneg_preserved (st : State) (now : Nat) (sec : Option String)
    (size qty : Option Int) (h : nonNegStock st.stock) :
    nonNegStock (stockIn st now sec size qty).state.stock ∧
    nonNegStock (stockOut st now sec size qty).state.stock ∧
    ∀ rows : List CsvRow, (∀ r ∈ rows, 0 ≤ r.quantity.getD 0) →
      nonNegStock (uploadHandler st now sec (some rows)).state.stock := by
  refine ⟨?_, ?_, ?_⟩
  · unfold stockIn
    split
    · exact h
    · split
      · exact h
      · rename_i hg _
        push_neg at hg
        exact nonNeg_addQty _ _ (le_of_lt hg.2.2.2) st.stock h
  · unfold stockOut
    split
    · exact h
    · split
      · exact h
      · split
        · exact h
        · rename_i hg _ c hfind
          push_neg at hg
          split
          · exact h
          · rename_i hlt
            exact nonNeg_subQty _ _ st.stock h c hfind (by omega)
  · intro rows hrows
    unfold uploadHandler
    split
    · exact h
    · exact foldl_upload_nonNeg _ now rows st h hrows

/-- Claim C1, witness for the amended theorem at a concrete state. -/
theorem C1_witness :
    nonNegStock (⟨[⟨10, 5⟩], []⟩ : State).stock ∧
    nonNegStock (stockIn ⟨[⟨10, 5⟩], []⟩ 0 (some "A") (some 10)
      (some 3)).state.stock :=
  ⟨by simp [nonNegStock], (C1_nonneg_preserved ⟨[⟨10, 5⟩], []⟩ 0 (some "A")
    (some 10) (some 3) (by simp [nonNegStock])).1⟩

/-- Claim C2: every state reachable from the startup state by any
sequence of StockIn, StockOut and upload requests has at most one item
per size: the size keys of its collection are pairwise distinct, since
each mutation updates the first existing item of the size in place and
only pushes a new item when the size is absent. -/
theorem C2_unique_sizes (st : State) (h : Reachable st) :
    (sizes st.stock).Nodup := by
  induction h with
  | init => simp [initState, sizes]
  | stepIn st now sec size qty _ ih => exact stockIn_nodup st now sec size qty ih
  | stepOut st now sec size qty _ ih => exact stockOut_nodup st now sec size qty ih
  | stepUpload st now sec file _ ih => exact uploadHandler_nodup st now sec file ih

/-- Claim C2, witness: the theorem applied to a state reached by one
StockIn request. -/
theorem C2_witness :
    (sizes (stockIn initState 0 (some "A") (some 10) (some 5)).state.stock).Nodup :=
  C2_unique_sizes _ (Reachable.stepIn initState 0 (some "A") (some 10) (some 5)
    Reachable.init)

/-- Claim C3, counterexample: the claim says the uploaded transient
file is removed regardless of the outcome, but a request carrying a
file and an invalid section returns the Invalid section error on the
early-return path, before the stream pipeline whose end callback is
the only place `fs.unlinkSync` runs; the file is not deleted. -/
theorem C3_counterexample :
    (uploadHandler initState 0 (some "Z")
      (some [⟨some 10, some 5⟩])).fileDeleted = false ∧
    (uploadHandler initState 0 (some "Z")
      (some [⟨some 10, some 5⟩])).response = .err .invalidSection := by
  decide

/-- Claim C3, amended: when the section is valid and a file was
uploaded, the transient file is deleted after processing, however many
rows were skipped; on the invalid-section rejection the file is left
in place. -/
theorem C3_file_deleted (st : State) (now : Nat) (s : String)
    (rows : List CsvRow) (hs : s ∈ sections) :
    (uploadHandler st now (some s) (some rows)).fileDeleted = true := by
  have h2 : ¬(truthyS (some s) = false ∨
      ((some s : Option String).getD "") ∉ sections) := by
    simp [truthyS, sections_ne_empty hs, hs]
  unfold uploadHandler
  rw [if_neg h2]

/-- Claim C3, witness: a valid-section upload with one valid and one
NaN row deletes the file. -/
theorem C3_witness :
    "A" ∈ sections ∧
    (uploadHandler initState 0 (some "A")
      (some [⟨some 10, some 5⟩, ⟨none, some 3⟩])).fileDeleted = true :=
  ⟨by decide, C3_file_deleted initState 0 "A"
    [⟨some 10, some 5⟩, ⟨none, some 3⟩] (by decide)⟩

/-- Claim C4: when the collection holds an item of size z with
quantity c and the requested positive quantity q exceeds c, StockOut
answers the insufficient-stock error and leaves the whole persisted
state, collection and transaction log alike, unchanged. -/
theorem C4_insufficient_unchanged (st : State) (now : Nat) (s : String)
    (z c q : Int) (hs : s ∈ sections) (hz : z ≠ 0) (hq : 0 < q)
    (hfind : findQty z st.stock = some c) (hlt : c < q) :
    stockOut st now (some s) (some z) (some q) =
      ⟨st, .err .insufficientStock⟩ := by
  unfold stockOut
  rw [if_neg (guard_passes hs hz hq), if_neg (sec_pass hs)]
  simp only [Option.getD_some]
  split
  · rename_i hnone
    rw [hfind] at hnone
    simp at hnone
  · rename_i c2 hsome
    rw [hfind] at hsome
    injection hsome with hc
    subst hc
    rw [if_pos hlt]

/-- Claim C4, witness: requesting 20 of size 10 when 8 are in stock. -/
theorem C4_witness :
    "A" ∈ sections ∧ (10 : Int) ≠ 0 ∧ (0 : Int) < 20 ∧
    findQty 10 ([⟨10, 8⟩] : StockCollection) = some 8 ∧ (8 : Int) < 20 ∧
    stockOut ⟨[⟨10, 8⟩], []⟩ 0 (some "A") (some 10) (some 20) =
      ⟨⟨[⟨10, 8⟩], []⟩, .err .insufficientStock⟩ :=
  ⟨by decide, by decide, by decide, by decide, by decide,
    C4_insufficient_unchanged ⟨[⟨10, 8⟩], []⟩ 0 "A" 10 8 20 (by decide)
      (by decide) (by decide) (by decide) (by decide)⟩

/-- Claim C5, counterexample: the claim says two consecutive StockIn
requests of q1 and q2 leave size z at quantity q1 + q2 whether or not
the size was present initially; but starting from a reachable state
where size 10 already holds 5, StockIn of 1 twice leaves 7, not 2:
StockIn adds to the existing quantity instead of starting from 0. -/
theorem C5_counterexample :
    findQty 10 (stockIn (stockIn (stockIn initState 0 (some "A") (some 10)
        (some 5)).state 1 (some "A") (some 10) (some 1)).state 2 (some "A")
        (some 10) (some 1)).state.stock = some 7 ∧ (7 : Int) ≠ 1 + 1 := by
  decide

/-- Claim C5, amended: two consecutive StockIn requests of q1 then q2
on size z leave it at its prior quantity (0 when absent) plus q1 + q2;
in particular at exactly q1 + q2 when the size was absent initially. -/
theorem C5_stockIn_additive (st : State) (now1 now2 : Nat) (s : String)
    (z q1 q2 : Int) (hs : s ∈ sections) (hz : z ≠ 0)
    (h1 : 0 < q1) (h2 : 0 < q2) :
    findQty z (stockIn (stockIn st now1 (some s) (some z) (some q1)).state
        now2 (some s) (some z) (some q2)).state.stock =
      some ((findQty z st.stock).getD 0 + q1 + q2) := by
  rw [stockIn_ok_stock _ now2 s z q2 hs hz h2,
    stockIn_ok_stock st now1 s z q1 hs hz h1]
  simp [findQty_addQty]

/-- Claim C5, witness: on the empty collection, 2 then 3 gives 5. -/
theorem C5_witness :
    "A" ∈ sections ∧ (10 : Int) ≠ 0 ∧ (0 : Int) < 2 ∧ (0 : Int) < 3 ∧
    findQty 10 (stockIn (stockIn initState 0 (some "A") (some 10)
        (some 2)).state 1 (some "A") (some 10) (some 3)).state.stock =
      some ((findQty 10 initState.stock).getD 0 + 2 + 3) :=
  ⟨by decide, by decide, by decide, by decide,
    C5_stockIn_additive initState 0 1 "A" 10 2 3 (by decide) (by decide)
      (by decide) (by decide)⟩

/-- Claim C6: applying the same parsed upload row (size z, quantity q)
twice in one request leaves size z with the same final quantity as
applying it once; the row sets the quantity absolutely, so the second
application overwrites with the same value. -/
theorem C6_bulkset_idempotent (st : State) (now : Nat) (sec : Option String)
    (z q : Int) :
    findQty z (uploadHandler st now sec
        (some [⟨some z, some q⟩, ⟨some z, some q⟩])).state.stock =
      findQty z (uploadHandler st now sec
        (some [⟨some z, some q⟩])).state.stock := by
  unfold uploadHandler
  split
  · rfl
  · simp [applyUploadRow, setQty_setQty]

/-- Claim C7: a successful StockIn or StockOut appends exactly one IN
or OUT entry to the transaction log, and a successful upload appends
exactly one UPLOAD entry per applied (non-NaN) row, each carrying the
request quantities and the timestamp taken at append time, with every
prior entry preserved unchanged in front. -/
theorem C7_log_append (st : State) (now : Nat) (s : String) (z q : Int)
    (rows : List CsvRow) :
    ((stockIn st now (some s) (some z) (some q)).response.isOk = true →
      (stockIn st now (some s) (some z) (some q)).state.log =
        st.log ++ [⟨s, z, q, TxType.IN, now⟩]) ∧
    ((stockOut st now (some s) (some z) (some q)).response.isOk = true →
      (stockOut st now (some s) (some z) (some q)).state.log =
        st.log ++ [⟨s, z, q, TxType.OUT, now⟩]) ∧
    ((uploadHandler st now (some s) (some rows)).response.isOk = true →
      (uploadHandler st now (some s) (some rows)).state.log =
        st.log ++ (rows.filter rowValid).map
          (fun r => ⟨s, r.size.getD 0, r.quantity.getD 0, TxType.UPLOAD, now⟩)) := by
  refine ⟨?_, ?_, ?_⟩
  · unfold stockIn
    split
    · intro hok
      simp [ApiResponse.isOk] at hok
    · split
      · intro hok
        simp [ApiResponse.isOk] at hok
      · intro _
        simp [logTransaction]
  · unfold stockOut
    split
    · intro hok
      simp [ApiResponse.isOk] at hok
    · split
      · intro hok
        simp [ApiResponse.isOk] at hok
      · split
        · intro hok
          simp [ApiResponse.isOk] at hok
        · split
          · intro hok
            simp [ApiResponse.isOk] at hok
          · intro _
            simp [logTransaction]
  · unfold uploadHandler
    split
    · intro hok
      simp [ApiResponse.isOk] at hok
    · intro _
      exact foldl_upload_log _ now rows st

/-- Claim C7, witness: a successful StockIn on the empty state appends
the single IN entry. -/
theorem C7_witness :
    (stockIn initState 0 (some "A") (some 10) (some 5)).response.isOk = true ∧
    (stockIn initState 0 (some "A") (some 10) (some 5)).state.log =
      [⟨"A", 10, 5, TxType.IN, 0⟩] := by
  refine ⟨by decide, ?_⟩
  have h := (C7_log_append initState 0 "A" 10 5 []).1 (by decide)
  simpa using h

/-- Claim C8: when the collection has no item of size z, StockOut with
a positive quantity answers the item-not-found error and leaves the
whole state, collection and log alike, unchanged. -/
theorem C8_notFound_unchanged (st : State) (now : Nat) (s : String)
    (z q : Int) (hs : s ∈ sections) (hz : z ≠ 0) (hq : 0 < q)
    (hfind : findQty z st.stock = none) :
    stockOut st now (some s) (some z) (some q) = ⟨st, .err .itemNotFound⟩ := by
  unfold stockOut
  rw [if_neg (guard_passes hs hz hq), if_neg (sec_pass hs)]
  simp only [Option.getD_some]
  split
  · rfl
  · rename_i c2 hsome
    rw [hfind] at hsome
    simp at hsome

/-- Claim C8, witness: stock out of size 99 from a collection that
only holds size 10. -/
theorem C8_witness :
    "A" ∈ sections ∧ (99 : Int) ≠ 0 ∧ (0 : Int) < 5 ∧
    findQty 99 ([⟨10, 8⟩] : StockCollection) = none ∧
    stockOut ⟨[⟨10, 8⟩], []⟩ 0 (some "A") (some 99) (some 5) =
      ⟨⟨[⟨10, 8⟩], []⟩, .err .itemNotFound⟩ :=
  ⟨by decide, by decide, by decide, by decide,
    C8_notFound_unchanged ⟨[⟨10, 8⟩], []⟩ 0 "A" 99 5 (by decide) (by decide)
      (by decide) (by decide)⟩

/-- Claim C9: the persistence read returns the full persisted list
when the document is present, and swallows a missing or unreadable
document into the empty list instead of propagating the failure. -/
theorem C9_load (l : StockCollection) :
    getStockData (some l) = l ∧ getStockData none = [] :=
  ⟨rfl, rfl⟩

/-- Claim C10: a StockIn or StockOut request with a falsy section,
size or quantity field (absent, null, empty string, or the number 0)
is rejected with the Invalid input data message and the state is
untouched; in particular size 0 is falsy and so rejected even though 0
is a well-typed integer size. -/
theorem C10_falsy_rejected (st : State) (now : Nat) (sec : Option String)
    (size qty : Option Int)
    (h : truthyS sec = false ∨ truthyI size = false ∨ truthyI qty = false) :
    stockIn st now sec size qty = ⟨st, .err .invalidInput⟩ ∧
    stockOut st now sec size qty = ⟨st, .err .invalidInput⟩ ∧
    ApiError.message .invalidInput = "Invalid input data" ∧
    truthyI (some 0) = false := by
  have h4 : truthyS sec = false ∨ truthyI size = false ∨
      truthyI qty = false ∨ qty.getD 0 ≤ 0 := by
    tauto
  refine ⟨?_, ?_, rfl, by decide⟩
  · unfold stockIn
    rw [if_pos h4]
  · unfold stockOut
    rw [if_pos h4]

/-- Claim C10, witness: size 0 with an otherwise valid request is
rejected by StockIn with state unchanged. -/
theorem C10_witness :
    truthyI (some 0) = false ∧
    stockIn initState 5 (some "A") (some 0) (some 7) =
      ⟨initState, .err .invalidInput⟩ :=
  ⟨by decide, (C10_falsy_rejected initState 5 (some "A") (some 0) (some 7)
    (Or.inr (Or.inl (by decide)))).1⟩

end StockBackend
